import Mathlib

set_option autoImplicit false

/-!
Shallow embedding of the requirements list controller of the
compliance-copilot-web repository.

The embedded code lives in:
  - `src/lib/testing.ts` (`formatDate`, `daysUntil`),
  - `src/app/requirements/requirements-client.tsx` (`deriveUiStatus`,
    `parseDueFilters`, `toggleStatusFilter`, `updateQuery`, `resolvePage`,
    the selection purge effect, `toggleSelection`, `archiveRequirement`),
  - `src/app/requirements/triage-panel.tsx` (`handleSubmit`, `handleDismissClick`),
  - `src/lib/api/server.ts` (the mock list endpoint that reports pagination).

Modelling conventions:
  - JavaScript date values are abstracted through the lens the code applies
    to them: a due-date field is either nullish (null/undefined/empty, the
    `if (!value)` branch), a string whose `new Date(...)` parse is invalid
    (`Number.isNaN(date.getTime())`), or a valid instant.  A valid instant
    is recorded as its UTC calendar day index (the image of
    `Date.UTC(getUTCFullYear(), getUTCMonth(), getUTCDate())`, divided by
    the milliseconds of a day) together with its time of day in
    milliseconds, so that time-of-day (in)dependence is expressible.
  - JavaScript machine numbers only occur here as exact integers
    (millisecond timestamps, day counts, page numbers), so they are
    embedded as `Int`/`Nat`; the division inside `daysUntil` is exact
    (both operands are multiples of `msPerDay`), hence `Math.round` of the
    float quotient equals the integer quotient.
  - Query-string values that the code splits on commas are embedded as
    `List Char`, with `split(",")`/`join(",")`/`trim()` given their exact
    JavaScript semantics on that representation.
-/

/-! ## Dates: `daysUntil` and `formatDate` from `src/lib/testing.ts` -/

/-- Milliseconds of one day: the `1000 * 60 * 60 * 24` of `daysUntil`. -/
def msPerDay : Int := 1000 * 60 * 60 * 24

/-- A valid JavaScript `Date`, seen through the UTC getters the code uses:
`day` is the UTC calendar day (the value of
`Date.UTC(getUTCFullYear(), getUTCMonth(), getUTCDate())` divided by
`msPerDay`) and `msOfDay` is the time of day within that UTC day. -/
structure UtcInstant where
  day : Int
  msOfDay : Int
  deriving DecidableEq, Repr

/-- A `string | null | undefined` date field, partitioned exactly as
`daysUntil`/`formatDate` observe it. -/
inductive JsDateValue where
  | nullish
  | invalid
  | valid (t : UtcInstant)
  deriving DecidableEq, Repr

/-- The value of `Date.UTC(d.getUTCFullYear(), d.getUTCMonth(), d.getUTCDate())`:
the UTC midnight timestamp of the instant, in milliseconds. -/
def utcMidnightMs (t : UtcInstant) : Int := t.day * msPerDay

/-- Function `daysUntil` from `src/lib/testing.ts`, with the current wall clock
passed explicitly.  `Math.round(diff / msPerDay)` is the exact integer
quotient because `diff` is a difference of two UTC midnights. -/
def daysUntil (value : JsDateValue) (now : UtcInstant) : Option Int :=
  match value with
  | .nullish => none
  | .invalid => none
  | .valid target => some ((utcMidnightMs target - utcMidnightMs now) / msPerDay)

/-- The rendering `formatDate` produces: the em dash placeholder, or the
locale formatting of a valid date (the `Intl.DateTimeFormat` output is kept
abstract as the instant it formats together with the locale string). -/
inductive FormatResult where
  | missing
  | formatted (t : UtcInstant) (locale : String)
  deriving DecidableEq, Repr

/-- Function `formatDate` from `src/lib/testing.ts`: nullish and unparsable values
render as the placeholder, valid dates go to the locale formatter. -/
def formatDate (value : JsDateValue) (locale : String) : FormatResult :=
  match value with
  | .nullish => .missing
  | .invalid => .missing
  | .valid t => .formatted t locale

/-! ## The `Requirement` record and `deriveUiStatus` -/

/-- The `Requirement` record of `requirements-client.tsx`, restricted to
scalar fields.  `status` is typed `string` in TypeScript but the code
guards it with `?? "OPEN"` and `===` comparisons, so it is embedded as
`Option String`; `due_date`/`next_due` are date strings embedded through
`JsDateValue`. -/
structure Requirement where
  id : String
  document_id : Option String := none
  document_name : Option String := none
  title_en : String := ""
  title_es : String := ""
  description_en : String := ""
  description_es : String := ""
  category : Option String := none
  frequency : Option String := none
  anchor_type : Option String := none
  due_date : JsDateValue := .nullish
  status : Option String := none
  source_ref : Option String := none
  next_due : JsDateValue := .nullish
  archive_state : Option String := none
  deriving DecidableEq, Repr

/-- The six presentation statuses, the codomain of `deriveUiStatus`. -/
inductive UiStatus where
  | OPEN
  | NEEDS_REVIEW
  | NEEDS_TRIAGE
  | COMPLETED
  | ARCHIVED
  | OVERDUE
  deriving DecidableEq, Repr

/-- Translation of `typeof daysRemaining === "number" && daysRemaining < 0`. -/
def isNegativeDays : Option Int → Bool
  | some d => d < 0
  | none => false

/-- Function `deriveUiStatus` from `requirements-client.tsx` (lines 1025-1062),
with the wall clock passed explicitly. -/
def deriveUiStatus (record : Requirement) (now : UtcInstant) : UiStatus :=
  if record.archive_state = some "archived" ∨ record.archive_state = some "deleted" then
    .ARCHIVED
  else if record.status = some "ARCHIVED" then
    .ARCHIVED
  else
    let status := record.status.getD "OPEN"
    let daysRemaining := daysUntil record.due_date now
    if status = "PENDING_REVIEW" then
      if isNegativeDays daysRemaining then .OVERDUE else .NEEDS_TRIAGE
    else if status = "DONE" ∨ status = "READY" then
      if isNegativeDays daysRemaining then .OVERDUE else .COMPLETED
    else if status = "REVIEW" then
      if isNegativeDays daysRemaining then .OVERDUE else .NEEDS_REVIEW
    else if isNegativeDays daysRemaining then .OVERDUE
    else .OPEN

/-! ## Comma-separated query values: `split(",")`, `join(",")`, `trim()` -/

/-- JavaScript `s.split(",")` on the character-list representation:
splits at every comma, keeping empty segments (so the result is never
empty).  The accumulator holds the current segment reversed. -/
def splitCommaAux : List Char → List Char → List (List Char)
  | [], acc => [acc.reverse]
  | c :: rest, acc =>
    if c = ',' then acc.reverse :: splitCommaAux rest []
    else splitCommaAux rest (c :: acc)

/-- JavaScript `s.split(",")`. -/
def splitComma (s : List Char) : List (List Char) := splitCommaAux s []

/-- JavaScript `tokens.join(",")`. -/
def joinComma : List (List Char) → List Char
  | [] => []
  | [t] => t
  | t :: rest => t ++ ',' :: joinComma rest

/-- Characters removed by JavaScript `String.prototype.trim` (the ASCII
whitespace characters plus NBSP and the BOM; the remaining Unicode space
separators never occur in the values this codebase trims). -/
def isJsWhitespace (c : Char) : Bool :=
  c == ' ' || c == '\t' || c == '\n' || c == '\r' ||
    c.val == 11 || c.val == 12 || c.val == 160 || c.val == 65279

/-- JavaScript `s.trim()` on the character-list representation. -/
def jsTrimList (s : List Char) : List Char :=
  ((s.dropWhile isJsWhitespace).reverse.dropWhile isJsWhitespace).reverse

/-- JavaScript `s.trim()` on `String`. -/
def jsTrim (s : String) : String := String.mk (jsTrimList s.data)

/-- JavaScript `s.startsWith(p)` on the character-list representation
(used for the `frequency.startsWith("EVERY_N_")` checks). -/
def jsStartsWith : List Char → List Char → Bool
  | [], _ => true
  | _ :: _, [] => false
  | c :: p, d :: s => c == d && jsStartsWith p s

/-! ## Filter state and the filter codec -/

/-- The due-window filters, in canonical enumeration order. -/
inductive DueFilter where
  | overdue
  | due7
  | due30
  deriving DecidableEq, Repr

/-- Constant `dueFilterOptions` of `requirements-client.tsx`. -/
def dueFilterOptions : List DueFilter := [.overdue, .due7, .due30]

/-- The query token of a due filter (the strings of `dueFilterOptions`). -/
def dueFilterToken : DueFilter → List Char
  | .overdue => "overdue".data
  | .due7 => "due7".data
  | .due30 => "due30".data

/-- The status filter buckets. -/
inductive StatusFilter where
  | active
  | completed
  | archived
  | triage
  deriving DecidableEq, Repr

/-- Constant `STATUS_QUERY_MAP` of `requirements-client.tsx`. -/
def STATUS_QUERY_MAP : StatusFilter → List String
  | .active => ["OPEN", "REVIEW"]
  | .completed => ["DONE", "READY"]
  | .archived => []
  | .triage => ["PENDING_REVIEW"]

/-- Function `parseDueFilters` of `requirements-client.tsx` (lines 111-117):
the raw `due` query value (absent, or a string; the empty string is falsy
and treated like absence), split on commas, each token trimmed, then the
canonical option list is filtered by membership of its token among the
parsed tokens. -/
def parseDueFilters (raw : Option String) : List DueFilter :=
  match raw with
  | none => []
  | some s =>
    if s.data = [] then []
    else
      let tokens := (splitComma s.data).map jsTrimList
      dueFilterOptions.filter (fun option => tokens.contains (dueFilterToken option))

/-- The query keys `updateQuery` reads and writes (`due`, `status`,
`archived`, `page`); `none` is an absent key.  Keys the codec does not
touch are outside the model. -/
structure QueryParams where
  due : Option String := none
  status : Option String := none
  archived : Option String := none
  page : Option String := none
  deriving DecidableEq, Repr

/-- The insertion-ordered token set built by `updateQuery` (and by
`queryParams`) from the selected buckets: `STATUS_QUERY_MAP.active`
tokens first, then `completed`, then `triage`; the tokens of the three
buckets are pairwise distinct, so the JavaScript `Set` performs no
deduplication. -/
def statusTokensFor (filters : List StatusFilter) : List String :=
  (if filters.contains .active then STATUS_QUERY_MAP .active else []) ++
    (if filters.contains .completed then STATUS_QUERY_MAP .completed else []) ++
      (if filters.contains .triage then STATUS_QUERY_MAP .triage else [])

/-- The patch argument of `updateQuery`: each field is optional, an absent
field leaves the corresponding query keys untouched. -/
structure QueryPatch where
  dueFilters : Option (List DueFilter) := none
  statusFilters : Option (List StatusFilter) := none
  page : Option Int := none

/-- Function `updateQuery` of `requirements-client.tsx` (lines 515-573),
restricted to its query-string transformation (the mirror/selection reset
and the navigation call are modelled separately). -/
def updateQuery (next : QueryPatch) (params : QueryParams) : QueryParams :=
  let params :=
    match next.dueFilters with
    | none => params
    | some dueFilters =>
      if dueFilters = [] then { params with due := none }
      else { params with due := some (String.mk (joinComma (dueFilters.map dueFilterToken))) }
  let params :=
    match next.statusFilters with
    | none => params
    | some normalizedStatuses =>
      if normalizedStatuses.contains .archived then
        { params with status := none, archived := some "true" }
      else
        let params :=
          if normalizedStatuses.contains .active ∨ normalizedStatuses.contains .completed ∨
              normalizedStatuses.contains .triage then
            let statusTokens := statusTokensFor normalizedStatuses
            if statusTokens ≠ [] then
              { params with status := some (String.intercalate "," statusTokens) }
            else params
          else { params with status := none }
        { params with archived := none }
  match next.page with
  | none => params
  | some page =>
    if page ≤ 1 then { params with page := none }
    else { params with page := some (toString page) }

/-- Function `toggleStatusFilter` of `requirements-client.tsx`
(lines 593-607). -/
def toggleStatusFilter (value : StatusFilter) (prev : List StatusFilter) : List StatusFilter :=
  if value = .archived then
    if prev.contains .archived then prev.filter (fun item => item != .archived)
    else [.archived]
  else
    let next := prev.filter (fun item => item != .archived)
    if next.contains value then next.filter (fun item => item != value)
    else next ++ [value]

/-! ## Selection manager -/

/-- The selection purge effect of `RequirementsClient` (lines 501-503):
whenever `requirementRows` (the mirror) is replaced, the selection is
filtered to ids that some row of the new mirror carries with raw status
`PENDING_REVIEW`. -/
def purgeSelection (requirementRows : List Requirement) (prev : List String) : List String :=
  prev.filter (fun id =>
    requirementRows.any (fun item => item.id == id && item.status == some "PENDING_REVIEW"))

/-- Function `toggleSelection` of `requirements-client.tsx`
(lines 649-662). -/
def toggleSelection (requirement : Requirement) (checked : Bool)
    (prev : List String) : List String :=
  if requirement.status ≠ some "PENDING_REVIEW" then prev
  else if checked then
    if prev.contains requirement.id then prev
    else prev ++ [requirement.id]
  else prev.filter (fun id => id != requirement.id)

/-! ## Pagination -/

/-- Constant `PAGE_SIZE` of `requirements-client.tsx`. -/
def PAGE_SIZE : Nat := 10

/-- The `page` query parameter as `Number.parseInt(pageParam, 10)` sees it:
absent, a string with no leading integer (`NaN`), or one that parses to an
integer. -/
inductive PageParam where
  | absent
  | nonNumeric
  | numeric (n : Int)
  deriving DecidableEq, Repr

/-- Function `resolvePage` of `requirements-client.tsx` (lines 421-428):
an absent key defaults to 1, a `NaN` parse or a parse below 1 falls back
to 1, anything else is returned as parsed. -/
def resolvePage (pageParam : PageParam) : Int :=
  match pageParam with
  | .absent => 1
  | .nonNumeric => 1
  | .numeric parsed => if parsed < 1 then 1 else parsed

/-- The `pagination` object of a `/requirements` response. -/
structure PaginationInfo where
  page : Int
  limit : Nat
  total : Nat
  deriving DecidableEq, Repr

/-- JavaScript `Math.ceil(total / limit)` for natural operands with
`limit > 0`. -/
def jsCeilDiv (total limit : Nat) : Nat := (total + limit - 1) / limit

/-- The pagination block computed by the repository's `/requirements`
endpoint (`mockApiFetch` in `src/lib/api/server.ts`, lines 158-193) for a
request carrying `limit = PAGE_SIZE`: the limit is clamped into
`[1, 100]`, the requested page is clamped up to 1, the page count is
`max(1, ceil(total / limit))`, and the served page is the requested page
clamped down to the page count.  `filteredTotal` is the length of the
filtered item list. -/
def mockRequirementsPagination (filteredTotal : Nat) (requestedPage : Int) : PaginationInfo :=
  let limitParam : Nat := max 1 (min 100 PAGE_SIZE)
  let requested : Int := max 1 requestedPage
  let pageCount : Int := max 1 (jsCeilDiv filteredTotal limitParam : Nat)
  let page : Int := min requested pageCount
  { page := page, limit := limitParam, total := filteredTotal }

/-- The client-side page count of `RequirementsClient` (line 512):
`Math.max(1, Math.ceil(totalItems / PAGE_SIZE))`. -/
def clientPageCount (totalItems : Nat) : Nat := max 1 (jsCeilDiv totalItems PAGE_SIZE)

/-- The displayed page of `RequirementsClient` (line 513):
`requirements?.pagination.page ?? requestedPage`. -/
def currentPage (response : Option PaginationInfo) (requestedPage : Int) : Int :=
  match response with
  | some pagination => pagination.page
  | none => requestedPage

/-! ## Single-record archive and the dismiss prompt -/

/-- What an archive/dismiss handler decides before (or instead of) the
network call: a silent no-op on an already archived record, a cancelled
dialog, a rejected empty reason (toast, no request), or a request whose
body carries the trimmed reason. -/
inductive ArchiveOutcome where
  | noop
  | cancelled
  | reasonRequired
  | proceed (reason : String)
  deriving DecidableEq, Repr

/-- Function `archiveRequirement` of `requirements-client.tsx`
(lines 742-774), up to its network call: `promptResult` is the value of
`window.prompt` (`none` when dismissed).  Only a `proceed` outcome reaches
`apiFetch`, with `reason` as the request body's reason; every other
outcome leaves the mirror untouched. -/
def archiveRequirement (requirement : Requirement) (promptResult : Option String) : ArchiveOutcome :=
  if requirement.archive_state = some "archived" ∨ requirement.status = some "ARCHIVED" then
    .noop
  else
    match promptResult with
    | none => .cancelled
    | some reasonInput =>
      let reason := jsTrim reasonInput
      if reason = "" then .reasonRequired
      else .proceed reason

/-- Function `handleDismissClick` of `triage-panel.tsx` (lines 162-193),
up to the `onDismiss` call: `confirmed` is the value of `window.confirm`,
`promptResult` the value of `window.prompt`. -/
def handleDismissClick (confirmed : Bool) (promptResult : Option String) : ArchiveOutcome :=
  if !confirmed then .cancelled
  else
    match promptResult with
    | none => .cancelled
    | some reasonInput =>
      let archiveReason := jsTrim reasonInput
      if archiveReason = "" then .reasonRequired
      else .proceed archiveReason

/-! ## Bulk triage save (`handleSubmit` of `triage-panel.tsx`) -/

/-- A JavaScript `Number(...)` result on the interval field: `NaN` or a
number (the field is an `<input type="number">`, exercised with integer
values throughout; the guard logic is unchanged on the integer range). -/
inductive JsNumberValue where
  | nan
  | num (n : Int)
  deriving DecidableEq, Repr

/-- The `FormState` of `triage-panel.tsx`: every field is an optional
string (`handleChange` stores `undefined` for an emptied input).  The
interval field is embedded through the `Number()` parse the code applies
to it. -/
structure TriageForm where
  frequency : Option String := none
  anchorType : Option String := none
  anchorDate : Option String := none
  dueDate : Option String := none
  assignee : Option String := none
  interval : Option JsNumberValue := none
  status : Option String := none
  deriving DecidableEq, Repr

/-- JavaScript string truthiness on an optional string field:
`undefined`/`null` and the empty string are falsy, everything else
yields the string itself. -/
def presentString : Option String → Option String
  | none => none
  | some s => if s = "" then none else some s

/-- The result of `new Date(raw).toISOString()`, kept abstract as the raw
form value it was computed from (no theorem inspects the rendering). -/
structure IsoDateString where
  sourceValue : String
  deriving DecidableEq, Repr

/-- The `anchor_value` record assembled by `handleSubmit`: an optional
`date` key plus the interval keys. -/
structure AnchorValue where
  date : Option IsoDateString := none
  interval : Option Int := none
  days : Option Int := none
  weeks : Option Int := none
  months : Option Int := none
  deriving DecidableEq, Repr

/-- The body of `POST /requirements/triage/bulk` assembled by
`handleSubmit`. -/
structure TriagePayload where
  requirement_ids : List String
  frequency : Option String := none
  anchor_type : Option String := none
  anchor_value : Option AnchorValue := none
  due_date : Option IsoDateString := none
  assignee : Option String := none
  status : Option String := none
  deriving DecidableEq, Repr

/-- What `handleSubmit` does: reject client-side with a toast (named by
its translation key) before any network call, or call `onSubmit` with the
assembled payload. -/
inductive SubmitOutcome where
  | rejected (messageKey : String)
  | submit (payload : TriagePayload)
  deriving DecidableEq, Repr

/-- Truthiness of `intervalValue` (`undefined`, `NaN` and `0` are
falsy). -/
def jsNumTruthy : Option JsNumberValue → Bool
  | none => false
  | some .nan => false
  | some (.num n) => n != 0

/-- The interval guard of `handleSubmit`:
`!intervalValue || Number.isNaN(intervalValue) || intervalValue <= 0`. -/
def intervalInvalid : Option JsNumberValue → Bool
  | none => true
  | some .nan => true
  | some (.num n) => n ≤ 0

/-- Function `handleSubmit` of `triage-panel.tsx` (lines 80-156), up to
its `onSubmit` call.  Field reads go through `presentString` because the
source tests them with JavaScript truthiness. -/
def handleSubmit (selected : List Requirement) (form : TriageForm) : SubmitOutcome :=
  if presentString form.status = none then .rejected "triage.statusRequired"
  else
    match presentString form.frequency with
    | none => .rejected "triage.frequencyRequired"
    | some frequency =>
      let needsDueDate := ¬ (frequency = "BEFORE_EACH_USE" ∨ frequency = "ONE_TIME")
      if needsDueDate ∧ presentString form.dueDate = none then .rejected "triage.dueRequired"
      else
        let requiresInterval := jsStartsWith "EVERY_N_".data frequency.data
        let intervalValue := form.interval
        if requiresInterval ∧ intervalInvalid intervalValue then .rejected "triage.intervalRequired"
        else
          let payload : TriagePayload := { requirement_ids := selected.map (fun item => item.id) }
          let payload : TriagePayload := { payload with frequency := some frequency }
          let payload : TriagePayload :=
            match presentString form.anchorType with
            | none => payload
            | some anchorType =>
              let payload := { payload with anchor_type := some anchorType }
              match presentString form.anchorDate with
              | none => payload
              | some anchorDate =>
                { payload with anchor_value := some { date := some ⟨anchorDate⟩ } }
          let payload : TriagePayload :=
            if payload.anchor_type.isSome ∧ payload.anchor_value = none then
              { payload with anchor_value := some {} }
            else payload
          let payload : TriagePayload :=
            if requiresInterval ∧ jsNumTruthy intervalValue then
              match intervalValue with
              | some (.num intervalN) =>
                let anchorValue := payload.anchor_value.getD {}
                let anchorValue := { anchorValue with interval := some intervalN }
                let anchorValue :=
                  if frequency = "EVERY_N_DAYS" then { anchorValue with days := some intervalN }
                  else if frequency = "EVERY_N_WEEKS" then { anchorValue with weeks := some intervalN }
                  else if frequency = "EVERY_N_MONTHS" then { anchorValue with months := some intervalN }
                  else anchorValue
                { payload with anchor_value := some anchorValue }
              | _ => payload
            else payload
          let payload : TriagePayload :=
            match presentString form.dueDate with
            | none => payload
            | some dueDate => { payload with due_date := some ⟨dueDate⟩ }
          let payload : TriagePayload :=
            match presentString form.assignee with
            | none => payload
            | some assignee => { payload with assignee := some assignee }
          let payload : TriagePayload :=
            match presentString form.status with
            | none => payload
            | some status => { payload with status := some status }
          .submit payload

/-- Convenience recogniser for rejected submissions. -/
def SubmitOutcome.isRejected : SubmitOutcome → Bool
  | .rejected _ => true
  | .submit _ => false

/-! ## Helper lemmas -/

/-- On a valid date the rounded quotient of `daysUntil` is exactly the
difference of UTC calendar days. -/
theorem daysUntil_valid (target now : UtcInstant) :
    daysUntil (.valid target) now = some (target.day - now.day) := by
  have h : utcMidnightMs target - utcMidnightMs now = (target.day - now.day) * msPerDay := by
    unfold utcMidnightMs; ring
  show some ((utcMidnightMs target - utcMidnightMs now) / msPerDay) = _
  rw [h, Int.mul_ediv_cancel _ (by norm_num [msPerDay])]

/-- The OVERDUE presentation only arises from a negative `daysUntil`. -/
theorem deriveUiStatus_not_overdue (record : Requirement) (now : UtcInstant)
    (h : isNegativeDays (daysUntil record.due_date now) = false) :
    deriveUiStatus record now ≠ .OVERDUE := by
  unfold deriveUiStatus
  split_ifs <;> simp_all
  split_ifs <;> simp_all

/-! ## C1 -/

/-- C1: for every requirement record and wall clock, `deriveUiStatus`
returns exactly one of the six presentation statuses, and whenever the
archive metadata state is "archived" or "deleted", or the raw status is
ARCHIVED, the result is ARCHIVED regardless of every other field. -/
theorem deriveUiStatus_total_and_archived_wins (record : Requirement) (now : UtcInstant) :
    deriveUiStatus record now ∈
        [UiStatus.OPEN, .NEEDS_REVIEW, .NEEDS_TRIAGE, .COMPLETED, .ARCHIVED, .OVERDUE] ∧
      ((record.archive_state = some "archived" ∨ record.archive_state = some "deleted" ∨
          record.status = some "ARCHIVED") →
        deriveUiStatus record now = .ARCHIVED) := by
  constructor
  · cases deriveUiStatus record now <;> simp
  · intro h
    unfold deriveUiStatus
    rcases h with h | h | h
    · simp [h]
    · simp [h]
    · by_cases h2 : record.archive_state = some "archived" ∨ record.archive_state = some "deleted"
      · simp [h2]
      · simp [h2, h]

/-- Witness for C1 at a concrete record: archive metadata "archived"
forces the ARCHIVED presentation even on an OPEN, overdue-dated row. -/
theorem deriveUiStatus_total_and_archived_wins_spot :
    deriveUiStatus
        { id := "r1", status := some "OPEN", archive_state := some "archived",
          due_date := .valid ⟨19999, 0⟩ } ⟨20000, 0⟩ = .ARCHIVED :=
  (deriveUiStatus_total_and_archived_wins _ _).2 (Or.inl rfl)

/-! ## C10 -/

/-- C10: an archive metadata state other than "archived"/"deleted"
(e.g. "pending" or "restored") together with a raw status other than
ARCHIVED never yields the ARCHIVED presentation; derivation proceeds as
if the archive metadata were absent. -/
theorem deriveUiStatus_intermediate_states_not_archived (record : Requirement) (now : UtcInstant)
    (h1 : record.archive_state ≠ some "archived")
    (h2 : record.archive_state ≠ some "deleted")
    (h3 : record.status ≠ some "ARCHIVED") :
    deriveUiStatus record now ≠ .ARCHIVED ∧
      deriveUiStatus record now = deriveUiStatus { record with archive_state := none } now := by
  constructor
  · unfold deriveUiStatus
    simp only [h1, h2, h3, or_self, if_false, false_or]
    split_ifs <;> simp
  · unfold deriveUiStatus
    simp [h1, h2, h3]

/-- Witness for C10: a "pending" archive state on a PENDING_REVIEW row
does not present as ARCHIVED. -/
theorem deriveUiStatus_intermediate_states_not_archived_spot :
    deriveUiStatus
        { id := "r2", status := some "PENDING_REVIEW", archive_state := some "pending" }
        ⟨20000, 0⟩ ≠ .ARCHIVED :=
  (deriveUiStatus_intermediate_states_not_archived _ ⟨20000, 0⟩ (by decide) (by decide)
    (by decide)).1

/-! ## C9 -/

/-- C9: a due-date string whose `new Date(...)` parse is invalid makes
`daysUntil` return null without throwing, the record derives exactly like
one with no due date (in particular never OVERDUE), and `formatDate`
renders the date as missing. -/
theorem invalid_due_date_like_absent (record : Requirement) (now : UtcInstant) (locale : String)
    (h : record.due_date = .invalid) :
    daysUntil record.due_date now = none ∧
      deriveUiStatus record now = deriveUiStatus { record with due_date := .nullish } now ∧
      deriveUiStatus record now ≠ .OVERDUE ∧
      formatDate record.due_date locale = .missing := by
  refine ⟨by rw [h]; rfl, ?_, ?_, by rw [h]; rfl⟩
  · unfold deriveUiStatus
    rw [h]
    simp [daysUntil]
  · exact deriveUiStatus_not_overdue record now (by rw [h]; rfl)

/-- Witness for C9: an unparsable due date on an OPEN row is not overdue
and its date column renders as missing. -/
theorem invalid_due_date_like_absent_spot :
    deriveUiStatus { id := "r3", status := some "OPEN", due_date := .invalid } ⟨20000, 0⟩ ≠
        .OVERDUE ∧
      formatDate JsDateValue.invalid "en" = .missing :=
  ⟨(invalid_due_date_like_absent
      { id := "r3", status := some "OPEN", due_date := .invalid } ⟨20000, 0⟩ "en" rfl).2.2.1,
    (invalid_due_date_like_absent
      { id := "r3", status := some "OPEN", due_date := .invalid } ⟨20000, 0⟩ "en" rfl).2.2.2⟩

/-! ## C2 -/

/-- C2: the overdue check works at UTC calendar-day granularity: a due
date on today's UTC day gives `daysUntil = 0` and is never presented
OVERDUE, one calendar day earlier gives `daysUntil = -1` and derives
OVERDUE for non-archived PENDING_REVIEW/DONE/READY/REVIEW/OPEN records, a
nullish due date gives null and is never OVERDUE, and the check is
independent of the time-of-day of both the due date and the clock. -/
theorem overdue_check_calendar_day (target now : UtcInstant) (record : Requirement) :
    (target.day = now.day → daysUntil (.valid target) now = some 0) ∧
      (target.day = now.day - 1 → daysUntil (.valid target) now = some (-1)) ∧
      daysUntil .nullish now = none ∧
      (record.due_date = .valid target → target.day = now.day →
        deriveUiStatus record now ≠ .OVERDUE) ∧
      (record.due_date = .nullish → deriveUiStatus record now ≠ .OVERDUE) ∧
      (∀ ms1 ms2 msn1 msn2 : Int,
        daysUntil (.valid ⟨target.day, ms1⟩) ⟨now.day, msn1⟩ =
          daysUntil (.valid ⟨target.day, ms2⟩) ⟨now.day, msn2⟩) ∧
      (record.archive_state ≠ some "archived" → record.archive_state ≠ some "deleted" →
        record.status ∈ [some "PENDING_REVIEW", some "DONE", some "READY",
          some "REVIEW", some "OPEN"] →
        record.due_date = .valid target → target.day = now.day - 1 →
        deriveUiStatus record now = .OVERDUE) := by
  refine ⟨?_, ?_, rfl, ?_, ?_, ?_, ?_⟩
  · intro h; rw [daysUntil_valid, h]; simp
  · intro h; rw [daysUntil_valid, h]; simp
  · intro hdue h
    refine deriveUiStatus_not_overdue record now ?_
    rw [hdue, daysUntil_valid, h]
    simp [isNegativeDays]
  · intro hdue
    exact deriveUiStatus_not_overdue record now (by rw [hdue]; rfl)
  · intro ms1 ms2 msn1 msn2
    rw [daysUntil_valid, daysUntil_valid]
  · intro h1 h2 hmem hdue hday
    have hneg : isNegativeDays (daysUntil record.due_date now) = true := by
      rw [hdue, daysUntil_valid, hday]
      simp [isNegativeDays]
    simp only [List.mem_cons, List.mem_singleton] at hmem
    unfold deriveUiStatus
    rcases hmem with h | h | h | h | h | h <;>
      simp_all [h1, h2, hneg]

/-- Witness for C2: with the clock on UTC day 20000, a due date on day
19999 derives OVERDUE for a DONE record, while a due date on day 20000
yields `daysUntil = 0`. -/
theorem overdue_check_calendar_day_spot :
    daysUntil (.valid ⟨20000, 123⟩) ⟨20000, 456⟩ = some 0 ∧
      deriveUiStatus
        { id := "r4", status := some "DONE", due_date := .valid ⟨19999, 7⟩ }
        ⟨20000, 456⟩ = .OVERDUE := by
  constructor
  · exact (overdue_check_calendar_day ⟨20000, 123⟩ ⟨20000, 456⟩ { id := "r4" }).1 rfl
  · exact (overdue_check_calendar_day ⟨19999, 7⟩ ⟨20000, 456⟩
      { id := "r4", status := some "DONE", due_date := .valid ⟨19999, 7⟩ }).2.2.2.2.2.2
      (by decide) (by decide) (by decide) rfl (by decide)

/-! ## C3 -/

/-- C3: after a mirror replacement, the purge effect keeps exactly the
previously selected ids that the new mirror carries on a row with raw
status PENDING_REVIEW; every id whose row left that status or left the
mirror is gone. -/
theorem purgeSelection_membership (requirementRows : List Requirement) (prev : List String)
    (id : String) :
    id ∈ purgeSelection requirementRows prev ↔
      id ∈ prev ∧ ∃ item ∈ requirementRows,
        item.id = id ∧ item.status = some "PENDING_REVIEW" := by
  unfold purgeSelection
  constructor
  · intro h
    rcases List.mem_filter.mp h with ⟨hmem, hany⟩
    rcases List.any_eq_true.mp hany with ⟨item, hitem, hcond⟩
    simp only [Bool.and_eq_true, beq_iff_eq] at hcond
    exact ⟨hmem, item, hitem, hcond.1, hcond.2⟩
  · rintro ⟨hmem, item, hitem, hid, hstatus⟩
    refine List.mem_filter.mpr ⟨hmem, List.any_eq_true.mpr ⟨item, hitem, ?_⟩⟩
    rw [hid, hstatus]
    simp

/-! ## C4 -/

/-- Filtering out the archived bucket indeed removes it. -/
theorem archived_not_mem_filter (l : List StatusFilter) :
    StatusFilter.archived ∉ l.filter (fun item => item != StatusFilter.archived) := by
  intro h
  have h2 := (List.mem_filter.mp h).2
  simp at h2

/-- Toggling a non-archived bucket never introduces the archived bucket. -/
theorem archived_not_in_toggle (value : StatusFilter) (prev : List StatusFilter)
    (hv : value ≠ .archived) : StatusFilter.archived ∉ toggleStatusFilter value prev := by
  intro h
  unfold toggleStatusFilter at h
  rw [if_neg hv] at h
  simp only [] at h
  split_ifs at h with hc
  · exact archived_not_mem_filter prev ((List.mem_filter.mp h).1)
  · rcases List.mem_append.mp h with h1 | h1
    · exact archived_not_mem_filter prev h1
    · exact hv (List.mem_singleton.mp h1).symm

/-- C4: the archived status filter is exclusive: toggling archived on
yields exactly the singleton archived selection, toggling any other
bucket leaves archived out, and encoding a filter set with archived
removes the `status` key while writing `archived=true`, whereas encoding
one without archived removes the `archived` key. -/
theorem statusFilters_archived_exclusive (value : StatusFilter) (prev fs : List StatusFilter)
    (params : QueryParams) :
    (StatusFilter.archived ∈ toggleStatusFilter value prev →
      toggleStatusFilter value prev = [.archived]) ∧
      (value ≠ .archived → StatusFilter.archived ∉ toggleStatusFilter value prev) ∧
      (StatusFilter.archived ∈ fs →
        (updateQuery { statusFilters := some fs } params).status = none ∧
          (updateQuery { statusFilters := some fs } params).archived = some "true") ∧
      (StatusFilter.archived ∉ fs →
        (updateQuery { statusFilters := some fs } params).archived = none) := by
  refine ⟨?_, archived_not_in_toggle value prev, ?_, ?_⟩
  · intro h
    by_cases hv : value = .archived
    · subst hv
      unfold toggleStatusFilter at h ⊢
      rw [if_pos rfl] at h ⊢
      split_ifs at h ⊢ with hc
      · exact absurd h (archived_not_mem_filter prev)
      · rfl
    · exact absurd h (archived_not_in_toggle value prev hv)
  · intro h
    unfold updateQuery
    simp [h]
  · intro h
    unfold updateQuery
    simp [h]

/-- Witness for C4: toggling archived onto an active+triage selection
collapses it to archived alone, and encoding `[archived]` clears the
status key while setting the archived flag. -/
theorem statusFilters_archived_exclusive_spot :
    toggleStatusFilter .archived [.active, .triage] = [.archived] ∧
      (updateQuery { statusFilters := some [StatusFilter.archived] }
          { status := some "OPEN,REVIEW" }).status = none :=
  ⟨(statusFilters_archived_exclusive .archived [.active, .triage] [] {}).1 (by decide),
    ((statusFilters_archived_exclusive .archived [] [StatusFilter.archived]
        { status := some "OPEN,REVIEW" }).2.2.1 (by decide)).1⟩

/-! ## C5 -/

/-- The resolved page is always at least 1. -/
theorem one_le_resolvePage (pageParam : PageParam) : 1 ≤ resolvePage pageParam := by
  unfold resolvePage
  cases pageParam with
  | absent => norm_num
  | nonNumeric => norm_num
  | numeric n =>
    dsimp only
    split_ifs <;> omega

/-- C5: for every page query parameter and server-reported total, the
displayed page sits in `[1, max(1, ceil(total / pageSize))]`: a
non-numeric or sub-1 page parameter resolves to 1, and a request beyond
the last page is served (and therefore displayed) clamped to the last
page — for total 25 and page size 10 the page count is 3 and a requested
page 5 displays as 3. -/
theorem page_clamped (pageParam : PageParam) (total : Nat) :
    (1 ≤ currentPage (some (mockRequirementsPagination total (resolvePage pageParam)))
        (resolvePage pageParam) ∧
      currentPage (some (mockRequirementsPagination total (resolvePage pageParam)))
          (resolvePage pageParam) ≤ (clientPageCount total : Int)) ∧
      resolvePage .absent = 1 ∧
      resolvePage .nonNumeric = 1 ∧
      (∀ n : Int, n < 1 → resolvePage (.numeric n) = 1) ∧
      clientPageCount 25 = 3 ∧
      currentPage (some (mockRequirementsPagination 25 (resolvePage (.numeric 5))))
        (resolvePage (.numeric 5)) = 3 := by
  refine ⟨?_, rfl, rfl, ?_, by decide, by decide⟩
  · have hr := one_le_resolvePage pageParam
    unfold currentPage mockRequirementsPagination clientPageCount jsCeilDiv PAGE_SIZE
    dsimp only
    norm_num
    omega
  · intro n hn
    show (if n < 1 then 1 else n) = 1
    rw [if_pos hn]

/-- Witness for C5: a page parameter of 0 resolves to 1. -/
theorem page_clamped_spot : resolvePage (.numeric 0) = 1 :=
  (page_clamped .absent 0).2.2.2.1 0 (by decide)

/-! ## C6 -/

/-- Splitting consumes a comma-free chunk into the accumulator. -/
theorem splitCommaAux_comma_free (t : List Char) (h : ',' ∉ t) (acc rest : List Char) :
    splitCommaAux (t ++ rest) acc = splitCommaAux rest (t.reverse ++ acc) := by
  induction t generalizing acc with
  | nil => rfl
  | cons c t ih =>
    have hc : ¬ (c = ',') := fun hcc => h (by rw [hcc]; exact List.mem_cons_self ',' t)
    have ht : ',' ∉ t := fun hm => h (List.mem_cons_of_mem c hm)
    simp only [List.cons_append, splitCommaAux, List.append_eq]
    rw [if_neg hc, ih ht (c :: acc)]
    simp

/-- Splitting a single comma-free token recovers it. -/
theorem splitComma_single (t : List Char) (h : ',' ∉ t) : splitComma t = [t] := by
  unfold splitComma
  have h2 := splitCommaAux_comma_free t h [] []
  rw [List.append_nil] at h2
  rw [h2]
  simp [splitCommaAux]

/-- JavaScript `join(",")` followed by `split(",")` is the identity on
non-empty lists of comma-free tokens. -/
theorem splitComma_joinComma (ts : List (List Char)) (hne : ts ≠ [])
    (h : ∀ t ∈ ts, ',' ∉ t) : splitComma (joinComma ts) = ts := by
  induction ts with
  | nil => exact absurd rfl hne
  | cons t ts ih =>
    cases ts with
    | nil => exact splitComma_single t (h t (List.mem_cons_self t []))
    | cons u us =>
      have hjoin : joinComma (t :: u :: us) = t ++ ',' :: joinComma (u :: us) := rfl
      have ht : ',' ∉ t := h t (List.mem_cons_self t (u :: us))
      unfold splitComma
      rw [hjoin, splitCommaAux_comma_free t ht [] (',' :: joinComma (u :: us))]
      simp only [splitCommaAux, List.append_nil, List.reverse_reverse, if_true,
        eq_self_iff_true]
      have hrec := ih (by simp) (fun x hx => h x (List.mem_cons_of_mem t hx))
      unfold splitComma at hrec
      simp [hrec]

/-- The due filter tokens contain no comma. -/
theorem comma_not_in_dueFilterToken (o : DueFilter) : ',' ∉ dueFilterToken o := by
  cases o <;> decide

/-- The due filter tokens are trim-invariant (no surrounding whitespace). -/
theorem jsTrimList_dueFilterToken (o : DueFilter) :
    jsTrimList (dueFilterToken o) = dueFilterToken o := by
  cases o <;> decide

/-- The due filter tokens are pairwise distinct. -/
theorem dueFilterToken_injective : Function.Injective dueFilterToken := by
  intro a b hab
  cases a <;> cases b <;> first | rfl | (exfalso; revert hab; decide)

/-- Membership of a token among mapped tokens mirrors membership of the
filter itself. -/
theorem contains_token_map (fs : List DueFilter) (o : DueFilter) :
    (fs.map dueFilterToken).contains (dueFilterToken o) = fs.contains o := by
  cases h1 : (fs.map dueFilterToken).contains (dueFilterToken o) <;>
    cases h2 : fs.contains o
  · rfl
  · exfalso
    have hm : o ∈ fs := List.elem_iff.mp h2
    have : (fs.map dueFilterToken).contains (dueFilterToken o) = true :=
      List.elem_iff.mpr (List.mem_map_of_mem dueFilterToken hm)
    rw [h1] at this
    exact Bool.false_ne_true this
  · exfalso
    have hm := List.elem_iff.mp h1
    rcases List.mem_map.mp hm with ⟨a, ha, hao⟩
    have : fs.contains o = true := List.elem_iff.mpr (dueFilterToken_injective hao ▸ ha)
    rw [h2] at this
    exact Bool.false_ne_true this
  · rfl

/-- Joined token lists of a non-empty due filter selection are
non-empty. -/
theorem joinComma_map_token_ne_nil (o : DueFilter) (rest : List DueFilter) :
    joinComma ((o :: rest).map dueFilterToken) ≠ [] := by
  cases rest with
  | nil => cases o <;> decide
  | cons u us =>
    simp only [List.map_cons, joinComma]
    intro hcontra
    rcases List.append_eq_nil.mp hcontra with ⟨_, h2⟩
    exact List.cons_ne_nil _ _ h2

/-- Unfolds `parseDueFilters` on a present, non-empty raw value. -/
theorem parseDueFilters_mk (l : List Char) (h : l ≠ []) :
    parseDueFilters (some (String.mk l)) =
      dueFilterOptions.filter (fun option =>
        ((splitComma l).map jsTrimList).contains (dueFilterToken option)) := by
  unfold parseDueFilters
  dsimp only
  rw [if_neg h]

/-- C6: decoding the encoded due-filter query value restores the filter
set up to canonical enumeration order (the decoder returns the canonical
options filtered by membership in the encoded selection), and whatever
the raw query value is, the decoded list is a sublist of the canonical
enumeration (unknown tokens are dropped silently and order is
normalized). -/
theorem dueFilters_roundtrip (dueFilters : List DueFilter) (raw : String) :
    parseDueFilters (updateQuery { dueFilters := some dueFilters } {}).due =
        dueFilterOptions.filter (fun option => dueFilters.contains option) ∧
      List.Sublist (parseDueFilters (some raw)) dueFilterOptions := by
  constructor
  · cases dueFilters with
    | nil => decide
    | cons o rest =>
      have hdue : (updateQuery { dueFilters := some (o :: rest) } {}).due =
          some (String.mk (joinComma ((o :: rest).map dueFilterToken))) := by
        simp [updateQuery]
      rw [hdue, parseDueFilters_mk _ (joinComma_map_token_ne_nil o rest)]
      rw [splitComma_joinComma _ (by simp)
        (fun x hx => by
          rcases List.mem_map.mp hx with ⟨a, _, rfl⟩
          exact comma_not_in_dueFilterToken a)]
      rw [List.map_map]
      have htrim : (jsTrimList ∘ dueFilterToken) = dueFilterToken :=
        funext (fun a => jsTrimList_dueFilterToken a)
      rw [htrim]
      exact List.filter_congr (fun a _ => contains_token_map (o :: rest) a)
  · unfold parseDueFilters
    dsimp only
    split_ifs
    · exact List.nil_sublist _
    · exact List.filter_sublist _
/-! ## C7 -/

/-- A frequency that starts with `EVERY_N_` is none of the no-due-date
frequencies and is non-empty. -/
theorem everyN_needs_due (f : String) (hsw : jsStartsWith "EVERY_N_".data f.data = true) :
    f ≠ "BEFORE_EACH_USE" ∧ f ≠ "ONE_TIME" ∧ f ≠ "" := by
  refine ⟨fun he => ?_, fun he => ?_, fun he => ?_⟩ <;>
    (rw [he] at hsw; exact absurd hsw (by decide))

/-- A validated every-N submission assembles an anchor value carrying the
interval both under `interval` and under its frequency-specific key. -/
theorem handleSubmit_everyN_payload (selected : List Requirement) (form : TriageForm)
    (f st dd : String) (n : Int)
    (hst : form.status = some st) (hstne : st ≠ "")
    (hfreq : form.frequency = some f)
    (hsw : jsStartsWith "EVERY_N_".data f.data = true)
    (hdd : form.dueDate = some dd) (hddne : dd ≠ "")
    (hint : form.interval = some (.num n)) (hn : 0 < n) :
    ∃ payload anchorValue, handleSubmit selected form = .submit payload ∧
      payload.anchor_value = some anchorValue ∧
      anchorValue.interval = some n ∧
      anchorValue.days = (if f = "EVERY_N_DAYS" then some n else none) ∧
      anchorValue.weeks = (if f = "EVERY_N_WEEKS" then some n else none) ∧
      anchorValue.months = (if f = "EVERY_N_MONTHS" then some n else none) := by
  obtain ⟨hnB, hnO, hnE⟩ := everyN_needs_due f hsw
  have hps : presentString form.status = some st := by
    rw [hst]; simp [presentString, hstne]
  have hpf : presentString form.frequency = some f := by
    rw [hfreq]; simp [presentString, hnE]
  have hpd : presentString form.dueDate = some dd := by
    rw [hdd]; simp [presentString, hddne]
  have hinv : intervalInvalid (some (.num n)) = false := by
    simp [intervalInvalid]; omega
  have htruthy : jsNumTruthy (some (.num n)) = true := by
    simp [jsNumTruthy]; omega
  unfold handleSubmit
  simp only [hps, hpf, hpd, hint]
  rw [if_neg (by simp)]
  rw [if_neg (by simp)]
  rw [if_neg (by simp [hinv])]
  rw [if_pos ⟨hsw, htruthy⟩]
  rcases hpat : presentString form.anchorType with _ | anchorType <;>
    rcases hpad : presentString form.anchorDate with _ | anchorDate <;>
      rcases hpas : presentString form.assignee with _ | assignee <;>
        simp only [hpat, hpad, hpas] <;>
          by_cases hfD : f = "EVERY_N_DAYS" <;>
            by_cases hfW : f = "EVERY_N_WEEKS" <;>
              by_cases hfM : f = "EVERY_N_MONTHS" <;>
                simp_all

/-- C7: a bulk triage save is rejected client-side before any network
call when the status is missing, the frequency is missing, the due date
is missing for a frequency other than BEFORE_EACH_USE/ONE_TIME, the
interval is missing for an every-N frequency (e.g. EVERY_N_WEEKS), or
the interval is non-positive; and a save with frequency EVERY_N_WEEKS
and interval 2 submits a payload whose anchor value carries both
`interval: 2` and `weeks: 2` (`days`/`months` for the other every-N
kinds). -/
theorem triage_submit_validation (selected : List Requirement) (form : TriageForm) :
    (form.status = none → (handleSubmit selected form).isRejected = true) ∧
      (form.frequency = none → (handleSubmit selected form).isRejected = true) ∧
      (∀ f, form.frequency = some f → ¬ (f = "BEFORE_EACH_USE" ∨ f = "ONE_TIME") →
        form.dueDate = none → (handleSubmit selected form).isRejected = true) ∧
      (form.frequency = some "EVERY_N_WEEKS" → form.interval = none →
        (handleSubmit selected form).isRejected = true) ∧
      (∀ f n, form.frequency = some f → jsStartsWith "EVERY_N_".data f.data = true →
        form.interval = some (.num n) → n ≤ 0 →
        (handleSubmit selected form).isRejected = true) ∧
      (∀ f st dd n, form.status = some st → st ≠ "" → form.frequency = some f →
        jsStartsWith "EVERY_N_".data f.data = true → form.dueDate = some dd → dd ≠ "" →
        form.interval = some (.num n) → 0 < n →
        ∃ payload anchorValue, handleSubmit selected form = .submit payload ∧
          payload.anchor_value = some anchorValue ∧
          anchorValue.interval = some n ∧
          anchorValue.days = (if f = "EVERY_N_DAYS" then some n else none) ∧
          anchorValue.weeks = (if f = "EVERY_N_WEEKS" then some n else none) ∧
          anchorValue.months = (if f = "EVERY_N_MONTHS" then some n else none)) := by
  refine ⟨?_, ?_, ?_, ?_, ?_, ?_⟩
  · intro h
    simp [handleSubmit, h, presentString, SubmitOutcome.isRejected]
  · intro h
    unfold handleSubmit
    rw [h]
    split_ifs <;> rfl
  · intro f hfreq hkind hdd
    rcases hps : presentString form.status with _ | st
    · simp [handleSubmit, hps, SubmitOutcome.isRejected]
    · by_cases hf : f = ""
      · have hpf : presentString form.frequency = none := by
          rw [hfreq, hf]; simp [presentString]
        simp [handleSubmit, hps, hpf, SubmitOutcome.isRejected]
      · have hpf : presentString form.frequency = some f := by
          rw [hfreq]; simp [presentString, hf]
        have hpd : presentString form.dueDate = none := by
          rw [hdd]; simp [presentString]
        unfold handleSubmit
        simp only [hps, hpf, hpd]
        rw [if_neg (by simp)]
        rw [if_pos ⟨hkind, by trivial⟩]
        rfl
  · intro hfreq hint
    rcases hps : presentString form.status with _ | st
    · simp [handleSubmit, hps, SubmitOutcome.isRejected]
    · have hpf : presentString form.frequency = some "EVERY_N_WEEKS" := by
        rw [hfreq]; simp [presentString]
      rcases hpd : presentString form.dueDate with _ | dd
      · unfold handleSubmit
        simp only [hps, hpf, hpd]
        rw [if_neg (by simp)]
        rw [if_pos ⟨by decide, by trivial⟩]
        rfl
      · unfold handleSubmit
        simp only [hps, hpf, hpd, hint]
        rw [if_neg (by simp)]
        rw [if_neg (by simp)]
        rw [if_pos ⟨by decide, by trivial⟩]
        rfl
  · intro f n hfreq hsw hint hn
    obtain ⟨hnB, hnO, hnE⟩ := everyN_needs_due f hsw
    have hinv : intervalInvalid (some (.num n)) = true := by
      simp [intervalInvalid]; omega
    rcases hps : presentString form.status with _ | st
    · simp [handleSubmit, hps, SubmitOutcome.isRejected]
    · have hpf : presentString form.frequency = some f := by
        rw [hfreq]; simp [presentString, hnE]
      rcases hpd : presentString form.dueDate with _ | dd
      · unfold handleSubmit
        simp only [hps, hpf, hpd]
        rw [if_neg (by simp)]
        rw [if_pos ⟨by simp [hnB, hnO], by trivial⟩]
        rfl
      · unfold handleSubmit
        simp only [hps, hpf, hpd, hint]
        rw [if_neg (by simp)]
        rw [if_neg (by simp)]
        rw [if_pos ⟨hsw, hinv⟩]
        rfl
  · intro f st dd n hst hstne hfreq hsw hdd hddne hint hn
    exact handleSubmit_everyN_payload selected form f st dd n hst hstne hfreq hsw hdd hddne
      hint hn

/-- Witness for C7: with frequency EVERY_N_WEEKS and no interval the save
is rejected before any network call, and with interval 2 the submitted
anchor value carries `interval: 2` and `weeks: 2`. -/
theorem triage_submit_validation_spot :
    (handleSubmit [] { frequency := some "EVERY_N_WEEKS", status := some "OPEN",
                       dueDate := some "2025-01-01" }).isRejected = true ∧
      ∃ payload anchorValue,
        handleSubmit [] { frequency := some "EVERY_N_WEEKS", status := some "OPEN",
                          dueDate := some "2025-01-01",
                          interval := some (.num 2) } = .submit payload ∧
          payload.anchor_value = some anchorValue ∧
          anchorValue.interval = some 2 ∧
          anchorValue.days = (if "EVERY_N_WEEKS" = "EVERY_N_DAYS" then some 2 else none) ∧
          anchorValue.weeks = (if "EVERY_N_WEEKS" = "EVERY_N_WEEKS" then some 2 else none) ∧
          anchorValue.months = (if "EVERY_N_WEEKS" = "EVERY_N_MONTHS" then some 2 else none) := by
  constructor
  · exact (triage_submit_validation [] { frequency := some "EVERY_N_WEEKS",
                                         status := some "OPEN",
                                         dueDate := some "2025-01-01" }).2.2.2.1 rfl rfl
  · exact (triage_submit_validation [] { frequency := some "EVERY_N_WEEKS",
                                         status := some "OPEN",
                                         dueDate := some "2025-01-01",
                                         interval := some (.num 2) }).2.2.2.2.2
      "EVERY_N_WEEKS" "OPEN" "2025-01-01" 2 rfl (by decide) rfl (by decide) rfl (by decide)
      rfl (by decide)

/-! ## C8 -/

/-- Trimming a string of nothing but whitespace leaves the empty
string. -/
theorem jsTrim_whitespace_only (s : String) (h : ∀ c ∈ s.data, isJsWhitespace c = true) :
    jsTrim s = "" := by
  unfold jsTrim jsTrimList
  rw [List.dropWhile_eq_nil_iff.mpr (fun c hc => h c hc)]
  rfl

/-- C8: a single-record archive attempt is a no-op when the record is
already archived (archive state "archived" or raw status ARCHIVED); a
prompted reason that trims to nothing is rejected before any network call
(so the mirror is untouched); and a reason of `"  not applicable  "` is
trimmed to `"not applicable"` and sent as the request body's reason.  The
dismiss prompt of the triage panel applies the same trim-and-reject
rule. -/
theorem archive_reason_validation (requirement : Requirement) (promptResult : Option String)
    (s : String) :
    ((requirement.archive_state = some "archived" ∨ requirement.status = some "ARCHIVED") →
      archiveRequirement requirement promptResult = .noop) ∧
      (requirement.archive_state ≠ some "archived" → requirement.status ≠ some "ARCHIVED" →
        promptResult = some s → jsTrim s = "" →
        archiveRequirement requirement promptResult = .reasonRequired) ∧
      (requirement.archive_state ≠ some "archived" → requirement.status ≠ some "ARCHIVED" →
        promptResult = some "  not applicable  " →
        archiveRequirement requirement promptResult = .proceed "not applicable") ∧
      (jsTrim s = "" → handleDismissClick true (some s) = .reasonRequired) ∧
      handleDismissClick true (some "  not applicable  ") = .proceed "not applicable" := by
  refine ⟨?_, ?_, ?_, ?_, ?_⟩
  · intro h
    unfold archiveRequirement
    rw [if_pos h]
  · intro h1 h2 hp htrim
    unfold archiveRequirement
    rw [if_neg (by simp [h1, h2]), hp]
    simp only [htrim]
    rfl
  · intro h1 h2 hp
    unfold archiveRequirement
    rw [if_neg (by simp [h1, h2]), hp]
    have htrim : jsTrim "  not applicable  " = "not applicable" := by decide
    simp only [htrim]
    rfl
  · intro htrim
    unfold handleDismissClick
    simp only [Bool.not_true, htrim]
    rfl
  · unfold handleDismissClick
    have htrim : jsTrim "  not applicable  " = "not applicable" := by decide
    simp only [Bool.not_true, htrim]
    rfl

/-- Witness for C8: archiving an already archived record is a no-op, and
the concrete whitespace-padded reason is trimmed and accepted. -/
theorem archive_reason_validation_spot :
    archiveRequirement { id := "r5", archive_state := some "archived" } (some "x") = .noop ∧
      archiveRequirement { id := "r6" } (some "  not applicable  ") =
        .proceed "not applicable" ∧
      archiveRequirement { id := "r7" } (some "   ") = .reasonRequired := by
  refine ⟨?_, ?_, ?_⟩
  · exact (archive_reason_validation { id := "r5", archive_state := some "archived" }
      (some "x") "").1 (Or.inl rfl)
  · exact (archive_reason_validation { id := "r6" } (some "  not applicable  ") "").2.2.1
      (by decide) (by decide) rfl
  · exact (archive_reason_validation { id := "r7" } (some "   ") "   ").2.1
      (by decide) (by decide) rfl (by decide)
